import Mathlib

/-!
# Gas Log Controller — verification of the Control & Safety Supervisor

Shallow embedding of the control core of `iot-kits/Gas_Log_Controller_HA`:
the hysteresis thermostat (`src/thermostat.cpp`), the duty-cycle calculator
and the valve driver with its safety limiter (`src/valveDriver.cpp`), and the
mode dispatch of the main loop (`src/main.cpp`).

Modelling conventions:
* C `float` temperatures are modelled as `Option ℚ`: `none` stands for NaN
  (IEEE comparisons against NaN are false), `some q` for an ordinary value.
  All numeric values relevant to the claims are far from binary-rounding
  boundaries, so rational arithmetic mirrors the float computations.
* C `unsigned long` millisecond counters are modelled as `ℕ`.  The C
  subtraction `millis() - t0` is arithmetic mod 2^32; it coincides with
  truncated `ℕ` subtraction whenever the minuend is at least the subtrahend,
  which the monotone-time hypotheses of the theorems guarantee (times stay
  below 2^32, i.e. within the 49-day wrap period).
* The `static` module state of `valveDriver.cpp` is gathered in a record
  `VDState` and passed explicitly; wall-clock availability (the result of
  `localtime_r`) and `millis()` are explicit inputs of each call.
-/

namespace GasLog

/-! ## Configuration constants (`include/configuration.h`) -/

/-- `THERMOSTAT_HYSTERESIS = 0.2` °F. -/
def THERMOSTAT_HYSTERESIS : ℚ := 2/10

/-- `valveVoltage = 6.5` V. -/
def valveVoltage : ℚ := 65/10

/-- `voltageDividerRatio = 15.24`. -/
def voltageDividerRatio : ℚ := 1524/100

/-- `OPERATION_ALLOWED_BEGIN_HOUR = 10`. -/
def OPERATION_ALLOWED_BEGIN_HOUR : ℕ := 10

/-- `OPERATION_ALLOWED_END_HOUR = 23`. -/
def OPERATION_ALLOWED_END_HOUR : ℕ := 23

/-- `MAX_TOTAL_OPEN_MS = 240 * 60UL * 1000UL` (240 minutes). -/
def MAX_TOTAL_OPEN_MS : ℕ := 240 * 60 * 1000

/-- `INHIBIT_RESET_MS = 60 * 60UL * 1000UL` (60 minutes). -/
def INHIBIT_RESET_MS : ℕ := 60 * 60 * 1000

/-! ## Hysteresis engine (`src/thermostat.cpp`) -/

/-- IEEE float comparison `x >= y` where `x` may be NaN (`none`):
any comparison with NaN is false. -/
def floatGe (x : Option ℚ) (y : ℚ) : Bool :=
  match x with
  | none => false
  | some q => decide (y ≤ q)

/-- IEEE float comparison `x <= y` where `x` may be NaN (`none`):
any comparison with NaN is false. -/
def floatLe (x : Option ℚ) (y : ℚ) : Bool :=
  match x with
  | none => false
  | some q => decide (q ≤ y)

/-- Body of `thermostatHeatCall` with the hysteresis constant generalised to a
parameter `hyst` (the source fixes it to `THERMOSTAT_HYSTERESIS`) and the
`static bool heatCall` latch passed in explicitly.  Returns the updated latch,
which is also the returned heat call of the C function. -/
def hysteresisStep (hyst : ℚ) (roomTemp : Option ℚ) (setpoint : ℚ)
    (heatCall : Bool) : Bool :=
  if heatCall then
    -- stay on until roomTemp >= setpoint + hysteresis
    if floatGe roomTemp (setpoint + hyst) then false else heatCall
  else
    -- stay off until roomTemp <= setpoint - hysteresis
    if floatLe roomTemp (setpoint - hyst) then true else heatCall

/-- `thermostatHeatCall` from `src/thermostat.cpp`: `hysteresisStep` at the
configured `THERMOSTAT_HYSTERESIS`. -/
def thermostatHeatCall (roomTemp : Option ℚ) (setpoint : ℚ)
    (heatCall : Bool) : Bool :=
  hysteresisStep THERMOSTAT_HYSTERESIS roomTemp setpoint heatCall

/-- Outputs of successive `thermostatHeatCall` calls over a temperature
sequence, threading the latch (which starts as the given `latch`). -/
def heatCallSequence (hyst setpoint : ℚ) (latch : Bool) :
    List (Option ℚ) → List Bool
  | [] => []
  | t :: ts =>
    let b := hysteresisStep hyst t setpoint latch
    b :: heatCallSequence hyst setpoint b ts

/-! ## Duty-cycle calculator (`readVoltageDutyCycle`, `src/valveDriver.cpp`) -/

/-- Result of the IEEE float division `valveVoltage / supplyVoltage`.
For the use in `readVoltageDutyCycle` the numerator is the positive constant
`valveVoltage` and the denominator is a measured, non-negative voltage, so the
only non-finite outcome is `+∞` (denominator exactly zero); no fault occurs. -/
inductive FloatQuot where
  | fin (q : ℚ)
  | posInf
deriving DecidableEq, Repr

/-- IEEE float division for a positive numerator and non-negative denominator:
`+∞` when the denominator is zero, the exact quotient otherwise. -/
def floatDiv (num den : ℚ) : FloatQuot :=
  if den = 0 then .posInf else .fin (num / den)

/-- The clamp `if (ratio < 0) ratio = 0; else if (ratio > 1) ratio = 1;`
from `readVoltageDutyCycle`; `+∞ > 1`, so `+∞` clamps to `1`. -/
def clampRatio : FloatQuot → ℚ
  | .posInf => 1
  | .fin r => if r < 0 then 0 else if 1 < r then 1 else r

/-- `readVoltageDutyCycle` from `src/valveDriver.cpp`, as a function of the ten
raw ADC millivolt samples (`analogReadMilliVolts` results, unsigned).
The average uses C integer division by `N = 10`; the cast
`(uint8_t)(ratio * 255.0f + 0.5f)` truncates toward zero, i.e. takes the floor
of the non-negative value. -/
def readVoltageDutyCycle (samples : List ℕ) : ℕ :=
  let sum := samples.sum
  let avg_mV := sum / 10
  let supplyVoltage : ℚ := (avg_mV : ℚ) * (1/1000) * voltageDividerRatio
  let ratio := clampRatio (floatDiv valveVoltage supplyVoltage)
  (⌊ratio * 255 + 1/2⌋).toNat

/-! ## Schedule gate (`isOperationAllowed`, `src/valveDriver.cpp`) -/

/-- `isOperationAllowed` from `src/valveDriver.cpp`.  The `localtime_r` result
is modelled as `Option ℕ`: `none` when wall-clock time is unavailable (the
function then returns true "to avoid accidental lockout"), `some hour` giving
`tm_hour` otherwise.  Only the hour is consulted by the source; the configured
minute constants are both 0. -/
def isOperationAllowed (localHour : Option ℕ) : Bool :=
  match localHour with
  | none => true
  | some hour =>
    if OPERATION_ALLOWED_BEGIN_HOUR ≤ OPERATION_ALLOWED_END_HOUR then
      decide (OPERATION_ALLOWED_BEGIN_HOUR ≤ hour) &&
        decide (hour < OPERATION_ALLOWED_END_HOUR)
    else
      -- wrapped interval (kept for completeness, as in the source)
      decide (OPERATION_ALLOWED_BEGIN_HOUR ≤ hour) ||
        decide (hour < OPERATION_ALLOWED_END_HOUR)

/-! ## Valve driver state (`src/valveDriver.cpp` module state) -/

/-- The module-level mutable state of `valveDriver.cpp`:
`isValveOpen`, `cumulativeOpenMillis`, `lastOpenedAt`, `timeLimitActive`,
`inhibitStartMillis`.  `lastOpenedAt = 0` and `inhibitStartMillis = 0` double
as the "unset" sentinels, exactly as in the source. -/
structure VDState where
  isValveOpen : Bool
  cumulativeOpenMillis : ℕ
  lastOpenedAt : ℕ
  timeLimitActive : Bool
  inhibitStartMillis : ℕ
deriving DecidableEq, Repr

/-- The state established by `valveDriverBegin` (valve forced closed, all
safety counters zeroed). -/
def initValveState : VDState :=
  { isValveOpen := false
    cumulativeOpenMillis := 0
    lastOpenedAt := 0
    timeLimitActive := false
    inhibitStartMillis := 0 }

/-- `valveOpenRequest` from `src/valveDriver.cpp`.  `localHour` feeds the
internal `isOperationAllowed()` call; `now` is the value of `millis()`.
The hardware pulse (`openValve`/`closeValve`) and the status strings are
I/O only and carry no model state. -/
def valveOpenRequest (openValveRequest : Bool) (localHour : Option ℕ)
    (now : ℕ) (s : VDState) : VDState :=
  -- if requested state already matches, nothing to do
  if openValveRequest = s.isValveOpen then s
  else if openValveRequest then
    if !(isOperationAllowed localHour) then
      -- open blocked by schedule; "ensure valve is closed if it somehow was
      -- open" (note: unreachable with the valve open, the first test above
      -- already returned in that case)
      if s.isValveOpen then
        let s1 :=
          if s.lastOpenedAt ≠ 0 then
            { s with
                cumulativeOpenMillis :=
                  s.cumulativeOpenMillis + (now - s.lastOpenedAt)
                lastOpenedAt := 0 }
          else s
        { s1 with isValveOpen := false }
      else s
    else if s.timeLimitActive then
      -- open blocked: time limit active
      s
    else if MAX_TOTAL_OPEN_MS ≤ s.cumulativeOpenMillis then
      -- open blocked: cumulative open time exceeded
      { s with timeLimitActive := true }
    else
      -- OK to open; start accumulating open time
      { s with isValveOpen := true, lastOpenedAt := now }
  else
    -- closing request: add elapsed open time to accumulator
    let s1 :=
      if s.isValveOpen ∧ s.lastOpenedAt ≠ 0 then
        { s with
            cumulativeOpenMillis :=
              s.cumulativeOpenMillis + (now - s.lastOpenedAt)
            lastOpenedAt := 0 }
      else s
    { s1 with isValveOpen := false }

/-- First phase of `valveDriverLoop`: track the start/stop of the inhibition
window. -/
def loopInhibitTrack (localHour : Option ℕ) (now : ℕ) (s : VDState) : VDState :=
  if !(isOperationAllowed localHour) then
    if s.inhibitStartMillis = 0 then { s with inhibitStartMillis := now } else s
  else
    { s with inhibitStartMillis := 0 }

/-- The running open interval `runningOpenMs` computed by `valveDriverLoop`. -/
def runningOpenMs (now : ℕ) (s : VDState) : ℕ :=
  if s.isValveOpen ∧ s.lastOpenedAt ≠ 0 then now - s.lastOpenedAt else 0

/-- Second phase of `valveDriverLoop`: enforce the cumulative open-time limit
(close the valve, fold in the running interval and set `timeLimitActive` when
the total reaches `MAX_TOTAL_OPEN_MS`). -/
def loopLimitEnforce (now : ℕ) (s : VDState) : VDState :=
  let totalNow := s.cumulativeOpenMillis + runningOpenMs now s
  if ¬s.timeLimitActive ∧ MAX_TOTAL_OPEN_MS ≤ totalNow then
    let s1 :=
      if s.isValveOpen then
        { s with
            cumulativeOpenMillis := s.cumulativeOpenMillis + runningOpenMs now s
            lastOpenedAt := 0
            isValveOpen := false }
      else s
    { s1 with timeLimitActive := true }
  else s

/-- The condition of the final branch of `valveDriverLoop`: the limit is
active and the system has been inhibited for at least `INHIBIT_RESET_MS`. -/
def loopResetFires (now : ℕ) (s : VDState) : Bool :=
  s.timeLimitActive && decide (s.inhibitStartMillis ≠ 0) &&
    decide (INHIBIT_RESET_MS ≤ now - s.inhibitStartMillis)

/-- `valveDriverLoop` from `src/valveDriver.cpp`: inhibition tracking, limit
enforcement, then the reset of the counters after a sufficiently long
inhibition. -/
def valveDriverLoop (localHour : Option ℕ) (now : ℕ) (s : VDState) : VDState :=
  let s2 := loopLimitEnforce now (loopInhibitTrack localHour now s)
  if loopResetFires now s2 then
    { s2 with
        cumulativeOpenMillis := 0
        timeLimitActive := false
        inhibitStartMillis := 0 }
  else s2

/-! ## Traces of driver calls -/

/-- One observable call into the valve driver: either `valveOpenRequest b` or
a `valveDriverLoop` housekeeping tick, together with its environment (the
wall-clock hour, if available, and the `millis()` value). -/
inductive VDEvent where
  | request (openValveRequest : Bool)
  | tick
deriving DecidableEq, Repr

/-- A driver call together with its environment inputs. -/
structure VDStep where
  ev : VDEvent
  localHour : Option ℕ
  now : ℕ
deriving DecidableEq, Repr

/-- Execute one driver call. -/
def vdStep (st : VDStep) (s : VDState) : VDState :=
  match st.ev with
  | .request b => valveOpenRequest b st.localHour st.now s
  | .tick => valveDriverLoop st.localHour st.now s

/-- Execute a sequence of driver calls. -/
def vdRun (s : VDState) : List VDStep → VDState
  | [] => s
  | st :: rest => vdRun (vdStep st s) rest

/-- Well-formed timing of a trace: `millis()` values are positive and
non-decreasing (all below the 2^32 wrap, so that C unsigned subtraction is
plain subtraction), starting from lower bound `t`. -/
def timesOk : ℕ → List VDStep → Bool
  | _, [] => true
  | t, st :: rest =>
    decide (0 < st.now) && decide (t ≤ st.now) && timesOk st.now rest

/-- Whether the executed step performs the counter reset of
`valveDriverLoop` (request steps never do). -/
def stepResets (st : VDStep) (s : VDState) : Bool :=
  match st.ev with
  | .request _ => false
  | .tick =>
      loopResetFires st.now (loopLimitEnforce st.now
        (loopInhibitTrack st.localHour st.now s))

/-- Specification-side interval accounting for a run: `openSince` remembers
when the valve last transitioned closed → open, `closedSum` adds up every
open interval exactly once, at the moment the valve transitions open →
closed; `resetFired` records whether any step performed the counter reset of
`valveDriverLoop`. -/
structure OpenAccount where
  openSince : Option ℕ
  closedSum : ℕ
  resetFired : Bool
deriving DecidableEq, Repr

/-- Observe one driver call: record an opening, fold a closed interval into
`closedSum`, and flag counter resets. -/
def accountStep (st : VDStep) (s : VDState) (a : OpenAccount) : OpenAccount :=
  let s1 := vdStep st s
  let a1 :=
    if !s.isValveOpen && s1.isValveOpen then
      { a with openSince := some st.now }
    else if s.isValveOpen && !s1.isValveOpen then
      { a with
          openSince := none
          closedSum := a.closedSum + (st.now - (a.openSince.getD 0)) }
    else a
  if stepResets st s then { a1 with resetFired := true } else a1

/-- Run a trace while maintaining the interval accounting. -/
def vdAccountRun (s : VDState) (a : OpenAccount) :
    List VDStep → VDState × OpenAccount
  | [] => (s, a)
  | st :: rest => vdAccountRun (vdStep st s) (accountStep st s a) rest

/-- The empty account at the start of a run. -/
def initAccount : OpenAccount :=
  { openSince := none, closedSum := 0, resetFired := false }

/-! ## Mode dispatch of the main loop (`src/main.cpp`) -/

/-- `controlState.mode`: the three named modes of the switch in `loop()`,
plus `invalid` standing for any other value (the `default:` case). -/
inductive Mode where
  | off
  | on
  | thermostat
  | invalid
deriving DecidableEq, Repr

/-- The externally visible effects of one pass through the mode switch of
`loop()`: the (unchanged) mode, the updated hysteresis latch, the argument
passed to `valveOpenRequest`, the `setRoomTempColor` argument, and the
`updateWebStatus` message if any. -/
structure TickResult where
  mode : Mode
  heatLatch : Bool
  valveRequest : Bool
  roomTempColor : String
  statusUpdate : Option String
deriving DecidableEq, Repr

/-- The mode switch of `loop()` in `src/main.cpp`.  `tempF` is the static
temperature variable (`none` = NaN, before the first valid reading);
`latch` is the static latch inside `thermostatHeatCall`.  `loop()` never
writes `controlState.mode`, so the mode field is passed through. -/
def loopModeTick (mode : Mode) (tempF : Option ℚ) (setpointF : ℚ)
    (latch : Bool) : TickResult :=
  match mode with
  | .off =>
      { mode := .off, heatLatch := latch, valveRequest := false
        roomTempColor := "OFF", statusUpdate := none }
  | .on =>
      { mode := .on, heatLatch := latch, valveRequest := true
        roomTempColor := "HEATING", statusUpdate := none }
  | .thermostat =>
      let latch2 := thermostatHeatCall tempF setpointF latch
      if latch2 then
        { mode := .thermostat, heatLatch := latch2, valveRequest := true
          roomTempColor := "HEATING", statusUpdate := none }
      else
        { mode := .thermostat, heatLatch := latch2, valveRequest := false
          roomTempColor := "IDLE", statusUpdate := none }
  | .invalid =>
      { mode := .invalid, heatLatch := latch, valveRequest := false
        roomTempColor := "OFF", statusUpdate := some "Invalid mode" }

/-- The sensor check of `setup()` in `src/main.cpp`: when the temperature
sensor fails to initialise, the mode is forced to `MODE_OFF` and the status
"Sensor failed" is surfaced; otherwise the mode is left alone. -/
def setupSensorCheck (sensorOk : Bool) (mode : Mode) : Mode × Option String :=
  if sensorOk then (mode, none) else (Mode.off, some "Sensor failed")

/-! ## Specification-side predicates and concrete witness inputs -/

/-- Trace-level meaning of the `inhibitStartMillis` sentinel: whenever it is
non-zero, some tick of the executed trace started the current uninterrupted
inhibition run at exactly that `millis()` value, that tick saw the window
closed, and every later tick of the trace also saw the window closed
(request steps do not consult the window). -/
def InhibitSince (T : List VDStep) (s : VDState) : Prop :=
  s.inhibitStartMillis ≠ 0 →
    ∃ T1 q T2, T = T1 ++ q :: T2 ∧ q.ev = VDEvent.tick ∧
      q.now = s.inhibitStartMillis ∧
      isOperationAllowed q.localHour = false ∧
      ∀ r ∈ T2, r.ev = VDEvent.tick → isOperationAllowed r.localHour = false

/-- Interval-accounting invariant tying the driver state to the
specification-side account, relative to a lower bound `t` on all future
`millis()` values: unless a counter reset has fired, the valve is open
exactly when an open interval is pending, `lastOpenedAt` agrees with the
pending interval start (positive, not in the future), and the accumulator
equals the sum of the closed intervals. -/
def AccountInv (t : ℕ) (s : VDState) (a : OpenAccount) : Prop :=
  a.resetFired = true ∨
    (s.isValveOpen = a.openSince.isSome ∧
      (∀ u, a.openSince = some u → s.lastOpenedAt = u ∧ 0 < u ∧ u ≤ t) ∧
      s.cumulativeOpenMillis = a.closedSum)

/-- A reachable driver state with the valve open: it was opened at
`millis() = 5000` while the wall clock read an allowed hour (e.g. 22:59). -/
def scheduleOpenState : VDState :=
  { isValveOpen := true
    cumulativeOpenMillis := 0
    lastOpenedAt := 5000
    timeLimitActive := false
    inhibitStartMillis := 0 }

/-- A state with the budget exactly exhausted, valve closed, during allowed
hours. -/
def exhaustedState : VDState :=
  { isValveOpen := false
    cumulativeOpenMillis := MAX_TOTAL_OPEN_MS
    lastOpenedAt := 0
    timeLimitActive := false
    inhibitStartMillis := 0 }

/-- Witness trace for the budget-conservation claim: open for 2000 ms,
close, one housekeeping tick, open for 4000 ms, close (all during allowed
hours). -/
def c4Trace : List VDStep :=
  [{ ev := .request true, localHour := some 12, now := 1000 },
   { ev := .request false, localHour := some 12, now := 3000 },
   { ev := .tick, localHour := some 12, now := 4000 },
   { ev := .request true, localHour := some 12, now := 5000 },
   { ev := .request false, localHour := some 12, now := 9000 }]

/-- Witness trace for the reset claim: the valve opens at 1000 ms during
allowed hours; a tick at hour 23 (window closed) finds the budget exhausted,
closes the valve, sets the limit and starts the inhibition timer. -/
def c5Trace : List VDStep :=
  [{ ev := .request true, localHour := some 12, now := 1000 },
   { ev := .tick, localHour := some 23, now := 14401000 }]

/-- A state with the limit active during an inhibition that began at
`millis() = 500`. -/
def inhibitedLimitState : VDState :=
  { isValveOpen := false
    cumulativeOpenMillis := MAX_TOTAL_OPEN_MS
    lastOpenedAt := 0
    timeLimitActive := true
    inhibitStartMillis := 500 }

/-- A state with the limit active and no inhibition run started. -/
def limitNoInhibitState : VDState :=
  { isValveOpen := false
    cumulativeOpenMillis := MAX_TOTAL_OPEN_MS
    lastOpenedAt := 0
    timeLimitActive := true
    inhibitStartMillis := 0 }

/-! ## Theorems for the hysteresis claims -/

/-- C8: with setpoint 70 °F and hysteresis 0.2 °F, starting from the initial
(false) latch, the room-temperature sequence `[69.0, 69.9, 70.3, 70.5]`
produces the heat-call sequence `[true, true, false, false]`. -/
theorem scenario_setpoint70_sequence :
    heatCallSequence THERMOSTAT_HYSTERESIS 70 false
      [some 69, some (699/10), some (703/10), some (705/10)] =
      [true, true, false, false] := by
  norm_num [heatCallSequence, hysteresisStep, floatLe, floatGe,
    THERMOSTAT_HYSTERESIS]

/-- C10: calling `thermostatHeatCall` with a NaN room temperature leaves the
latch unchanged (both threshold comparisons are false), and in particular
before the first valid reading the heat call stays at its initial value
false, tick after tick. -/
theorem nan_reading_keeps_latch :
    (∀ setpoint latch, thermostatHeatCall none setpoint latch = latch) ∧
    (∀ setpoint n,
      heatCallSequence THERMOSTAT_HYSTERESIS setpoint false
        (List.replicate n none) = List.replicate n false) := by
  constructor
  · intro sp latch
    cases latch <;> rfl
  · intro sp n
    induction n with
    | zero => rfl
    | succ n ih =>
      rw [List.replicate_succ, List.replicate_succ]
      show hysteresisStep THERMOSTAT_HYSTERESIS none sp false ::
        heatCallSequence THERMOSTAT_HYSTERESIS sp
          (hysteresisStep THERMOSTAT_HYSTERESIS none sp false)
          (List.replicate n none) = false :: List.replicate n false
      rw [show hysteresisStep THERMOSTAT_HYSTERESIS none sp false = false
          from rfl]
      exact congrArg (false :: ·) ih

/-- C7: anti-chatter deadband.  For every setpoint `S` and hysteresis `H`,
a temperature sequence whose values stay strictly within `(S - H, S + H)`
never changes the hysteresis latch: every output equals the initial latch,
so the output never toggles. -/
theorem anti_chatter_deadband (S H : ℚ) (b : Bool) (ts : List (Option ℚ))
    (h : ∀ t ∈ ts, ∃ q, t = some q ∧ S - H < q ∧ q < S + H) :
    heatCallSequence H S b ts = List.replicate ts.length b := by
  revert h
  induction ts generalizing b with
  | nil =>
    intro _
    rfl
  | cons t ts ih =>
    intro h
    obtain ⟨q, rfl, hlo, hhi⟩ := h t (List.mem_cons_self t ts)
    have hstep : hysteresisStep H (some q) S b = b := by
      cases b
      · have hc : floatLe (some q) (S - H) = false := by
          simp only [floatLe, decide_eq_false_iff_not]
          linarith
        simp [hysteresisStep, hc]
      · have hc : floatGe (some q) (S + H) = false := by
          simp only [floatGe, decide_eq_false_iff_not]
          linarith
        simp [hysteresisStep, hc]
    rw [List.length_cons, List.replicate_succ]
    show hysteresisStep H (some q) S b ::
      heatCallSequence H S (hysteresisStep H (some q) S b) ts =
      b :: List.replicate ts.length b
    rw [hstep]
    exact congrArg (b :: ·)
      (ih b (fun u hu => h u (List.mem_cons_of_mem _ hu)))

/-- Witness for `anti_chatter_deadband` at `S = 70`, `H = 0.2`, initial latch
false and the in-deadband sequence `[69.9, 70.1]`. -/
theorem anti_chatter_deadband_witness :
    heatCallSequence (2/10) 70 false [some (699/10), some (701/10)] =
      List.replicate 2 false := by
  refine anti_chatter_deadband 70 (2/10) false _ ?_
  intro t ht
  simp only [List.mem_cons, List.not_mem_nil, or_false] at ht
  rcases ht with rfl | rfl
  · exact ⟨699/10, rfl, by norm_num, by norm_num⟩
  · exact ⟨701/10, rfl, by norm_num, by norm_num⟩

/-! ## Theorems for the duty-cycle claim (C2) -/

/-- C2, counterexample: with all ten ADC samples reading 0 mV the computed
supply voltage is 0, and `readVoltageDutyCycle` returns the maximal duty 255
(the IEEE division gives `+∞`, which the upper clamp maps to ratio 1), not
the duty 0 asserted by the claim. -/
theorem readVoltageDutyCycle_zero_samples_ne_zero :
    readVoltageDutyCycle (List.replicate 10 0) = 255 ∧
    readVoltageDutyCycle (List.replicate 10 0) ≠ 0 := by
  have h : readVoltageDutyCycle (List.replicate 10 0) = 255 := by
    simp only [readVoltageDutyCycle, List.sum_replicate, smul_eq_mul]
    norm_num [floatDiv, clampRatio]
    rfl
  exact ⟨h, by rw [h]; norm_num⟩

/-- C2 amended: whenever the averaged sample is 0 mV (sample sum below the
sample count 10, e.g. all samples 0), the computed supply voltage is 0 and
`readVoltageDutyCycle` returns the maximal duty 255 — the division yields
`+∞`, clamped to ratio 1 — with no divide-by-zero fault; the duty-0
fail-safe of the claim is not implemented. -/
theorem readVoltageDutyCycle_zero_supply_max_duty (samples : List ℕ)
    (h : samples.sum < 10) : readVoltageDutyCycle samples = 255 := by
  have h0 : samples.sum / 10 = 0 := Nat.div_eq_of_lt h
  simp only [readVoltageDutyCycle, h0]
  norm_num [floatDiv, clampRatio]
  rfl

/-- Witness for `readVoltageDutyCycle_zero_supply_max_duty` at the all-zero
sample list. -/
theorem readVoltageDutyCycle_zero_supply_max_duty_witness :
    (List.replicate 10 0).sum < 10 ∧
    readVoltageDutyCycle (List.replicate 10 0) = 255 :=
  ⟨by norm_num [List.sum_replicate],
   readVoltageDutyCycle_zero_supply_max_duty _
     (by norm_num [List.sum_replicate])⟩

/-! ## Theorems for the schedule-gate claims (C9, C1) -/

/-- C9: when local wall-clock time is unavailable (`localtime` fails, e.g.
before NTP sync), `isOperationAllowed` returns true, and an open request on
a closed, un-inhibited valve is granted (the valve opens) regardless of the
time of day. -/
theorem time_unavailable_allows_operation :
    isOperationAllowed none = true ∧
    (∀ now s, s.timeLimitActive = false →
      s.cumulativeOpenMillis < MAX_TOTAL_OPEN_MS → s.isValveOpen = false →
      (valveOpenRequest true none now s).isValveOpen = true) := by
  refine ⟨rfl, ?_⟩
  intro now s h1 h2 h3
  simp [valveOpenRequest, isOperationAllowed, h1, h3, not_le.mpr h2]

/-- Witness for `time_unavailable_allows_operation` at the initial state and
`millis() = 1000`. -/
theorem time_unavailable_allows_operation_witness :
    isOperationAllowed none = true ∧
    (valveOpenRequest true none 1000 initValveState).isValveOpen = true :=
  ⟨time_unavailable_allows_operation.1,
   time_unavailable_allows_operation.2 1000 initValveState rfl
     (by decide) rfl⟩

/-- C1, failing input: at hour 23 (outside the `[10, 23)` window) with the
valve open, `valveOpenRequest(true)` returns unchanged at the idempotence
check — the force-close branch of the schedule gate is unreachable — and
`valveDriverLoop` leaves the valve open as well (it closes only on budget
exhaustion), so no elapsed interval is folded into the accumulator.  The
open request is indeed not granted, but the open valve is never
force-closed, contradicting the claim. -/
theorem schedule_gate_never_force_closes :
    isOperationAllowed (some 23) = false ∧
    valveOpenRequest true (some 23) 600000 scheduleOpenState =
      scheduleOpenState ∧
    (valveDriverLoop (some 23) 600000 scheduleOpenState).isValveOpen =
      true ∧
    (valveDriverLoop (some 23) 600000
      scheduleOpenState).cumulativeOpenMillis = 0 := by
  decide

/-! ## Theorems for the NaN mode-controller claim (C3) -/

/-- C3, counterexample: a control tick in THERMOSTAT mode with the
temperature NaN leaves the mode at THERMOSTAT (no force-transition to OFF)
and surfaces no status message; the hysteresis engine is evaluated on the
NaN value (its latch is simply left unchanged, so the valve request equals
the prior latch). -/
theorem thermostat_mode_nan_not_forced_off :
    (loopModeTick .thermostat none 70 false).mode = Mode.thermostat ∧
    (loopModeTick .thermostat none 70 false).statusUpdate = none ∧
    (loopModeTick .thermostat none 70 false).heatLatch =
      thermostatHeatCall none 70 false :=
  ⟨rfl, rfl, rfl⟩

/-- C3 amended: on a control tick in THERMOSTAT mode with the temperature
reading unavailable (NaN), the mode stays THERMOSTAT and no error status is
surfaced; the hysteresis engine is evaluated on the NaN value, which leaves
its latch unchanged, so the valve request equals the prior latch (false
before the first valid reading).  The force-to-OFF with an error status
happens only in `setup()`, when the sensor fails to initialise. -/
theorem thermostat_mode_nan_keeps_mode_and_latch :
    (∀ setpoint latch,
      loopModeTick .thermostat none setpoint latch =
        { mode := .thermostat, heatLatch := latch, valveRequest := latch
          roomTempColor := if latch then "HEATING" else "IDLE"
          statusUpdate := none }) ∧
    (∀ mode, setupSensorCheck false mode = (Mode.off, some "Sensor failed")) := by
  constructor
  · intro sp latch
    cases latch <;> rfl
  · intro mode
    rfl

/-- Witness for `thermostat_mode_nan_keeps_mode_and_latch` at setpoint 70
with the latch on. -/
theorem thermostat_mode_nan_keeps_mode_and_latch_witness :
    loopModeTick .thermostat none 70 true =
      { mode := .thermostat, heatLatch := true, valveRequest := true
        roomTempColor := "HEATING", statusUpdate := none } ∧
    setupSensorCheck false Mode.thermostat =
      (Mode.off, some "Sensor failed") :=
  ⟨thermostat_mode_nan_keeps_mode_and_latch.1 70 true,
   thermostat_mode_nan_keeps_mode_and_latch.2 Mode.thermostat⟩

/-- Witness for `nan_reading_keeps_latch` at setpoint 70 and three NaN
ticks. -/
theorem nan_reading_keeps_latch_witness :
    thermostatHeatCall none 70 true = true ∧
    heatCallSequence THERMOSTAT_HYSTERESIS 70 false (List.replicate 3 none) =
      List.replicate 3 false :=
  ⟨nan_reading_keeps_latch.1 70 true, nan_reading_keeps_latch.2 70 3⟩

/-! ## Helper lemmas about the phases of `valveDriverLoop` -/

theorem loopInhibitTrack_eq (lh : Option ℕ) (now : ℕ) (s : VDState) :
    ∃ i, loopInhibitTrack lh now s = { s with inhibitStartMillis := i } := by
  unfold loopInhibitTrack
  cases hA : isOperationAllowed lh
  · rw [if_pos (show (!false) = true from rfl)]
    by_cases h0 : s.inhibitStartMillis = 0
    · exact ⟨now, by rw [if_pos h0]⟩
    · exact ⟨s.inhibitStartMillis, by rw [if_neg h0]⟩
  · exact ⟨0, by rw [if_neg (show ¬(!true) = true by simp)]⟩

theorem loopInhibitTrack_fields (lh : Option ℕ) (now : ℕ) (s : VDState) :
    (loopInhibitTrack lh now s).isValveOpen = s.isValveOpen ∧
    (loopInhibitTrack lh now s).cumulativeOpenMillis =
      s.cumulativeOpenMillis ∧
    (loopInhibitTrack lh now s).lastOpenedAt = s.lastOpenedAt ∧
    (loopInhibitTrack lh now s).timeLimitActive = s.timeLimitActive := by
  obtain ⟨i, hi⟩ := loopInhibitTrack_eq lh now s
  rw [hi]
  exact ⟨rfl, rfl, rfl, rfl⟩

theorem loopInhibitTrack_inhibit_allowed (lh : Option ℕ) (now : ℕ)
    (s : VDState) (h : isOperationAllowed lh = true) :
    (loopInhibitTrack lh now s).inhibitStartMillis = 0 := by
  simp [loopInhibitTrack, h]

theorem loopInhibitTrack_inhibit_disallowed (lh : Option ℕ) (now : ℕ)
    (s : VDState) (h : isOperationAllowed lh = false) :
    (loopInhibitTrack lh now s).inhibitStartMillis =
      if s.inhibitStartMillis = 0 then now else s.inhibitStartMillis := by
  simp only [loopInhibitTrack, h, Bool.not_false, if_true]
  split <;> simp_all

theorem loopLimitEnforce_inhibit (now : ℕ) (s : VDState) :
    (loopLimitEnforce now s).inhibitStartMillis = s.inhibitStartMillis := by
  simp only [loopLimitEnforce]
  split
  · split <;> rfl
  · rfl

theorem loopLimitEnforce_active (now : ℕ) (s : VDState)
    (h : s.timeLimitActive = true) : loopLimitEnforce now s = s := by
  simp only [loopLimitEnforce]
  rw [if_neg]
  simp [h]

theorem loopLimitEnforce_sets_limit (now : ℕ) (s : VDState)
    (h : MAX_TOTAL_OPEN_MS ≤ s.cumulativeOpenMillis + runningOpenMs now s) :
    (loopLimitEnforce now s).timeLimitActive = true := by
  simp only [loopLimitEnforce]
  cases hT : s.timeLimitActive
  · rw [if_pos ⟨by simp [hT], h⟩]
  · rw [if_neg (by simp [hT])]
    exact hT

/-! ## Theorem for the runtime-budget claim (C6) -/

/-- C6: (1) when `cumulativeOpenMillis` plus the running open interval has
reached `MAX_TOTAL_OPEN_MS`, a `valveDriverLoop` tick leaves
`timeLimitActive` set — unless, in the very same tick, the reset rule clears
it because the system has already been continuously inhibited for
`INHIBIT_RESET_MS` (in which case the counters are reset to zero); and
(2) while `timeLimitActive` holds, every `valveOpenRequest(true)` is denied:
the state is returned completely unchanged. -/
theorem budget_exhaustion_inhibits_opening :
    (∀ lh now s,
      MAX_TOTAL_OPEN_MS ≤ s.cumulativeOpenMillis + runningOpenMs now s →
      (valveDriverLoop lh now s).timeLimitActive = true ∨
      (isOperationAllowed lh = false ∧ s.inhibitStartMillis ≠ 0 ∧
        INHIBIT_RESET_MS ≤ now - s.inhibitStartMillis ∧
        (valveDriverLoop lh now s).timeLimitActive = false ∧
        (valveDriverLoop lh now s).cumulativeOpenMillis = 0)) ∧
    (∀ lh now s, s.timeLimitActive = true →
      valveOpenRequest true lh now s = s) := by
  constructor
  · intro lh now s htot
    have hfields := loopInhibitTrack_fields lh now s
    have hrun : runningOpenMs now (loopInhibitTrack lh now s) =
        runningOpenMs now s := by
      unfold runningOpenMs
      rw [hfields.1, hfields.2.2.1]
    have htot1 : MAX_TOTAL_OPEN_MS ≤
        (loopInhibitTrack lh now s).cumulativeOpenMillis +
          runningOpenMs now (loopInhibitTrack lh now s) := by
      rw [hfields.2.1, hrun]
      exact htot
    have hlim : (loopLimitEnforce now (loopInhibitTrack lh now s)).timeLimitActive
        = true :=
      loopLimitEnforce_sets_limit now _ htot1
    have hinh2 : (loopLimitEnforce now
        (loopInhibitTrack lh now s)).inhibitStartMillis =
        (loopInhibitTrack lh now s).inhibitStartMillis :=
      loopLimitEnforce_inhibit now _
    unfold valveDriverLoop
    by_cases hr : loopResetFires now
        (loopLimitEnforce now (loopInhibitTrack lh now s)) = true
    · -- the reset rule fires in the same tick
      rw [if_pos hr]
      right
      simp only [loopResetFires, Bool.and_eq_true, decide_eq_true_eq] at hr
      obtain ⟨⟨-, hne⟩, helapsed⟩ := hr
      rw [hinh2] at hne helapsed
      cases hA : isOperationAllowed lh
      · -- window closed at this tick
        rw [loopInhibitTrack_inhibit_disallowed lh now s hA] at hne helapsed
        by_cases h0 : s.inhibitStartMillis = 0
        · rw [if_pos h0] at helapsed
          exfalso
          simp only [Nat.sub_self] at helapsed
          simp [INHIBIT_RESET_MS] at helapsed
        · rw [if_neg h0] at helapsed
          exact ⟨rfl, h0, helapsed, rfl, rfl⟩
      · -- window open: the inhibition timer was just cleared, no reset
        exact absurd (loopInhibitTrack_inhibit_allowed lh now s hA) hne
    · rw [if_neg hr]
      exact Or.inl hlim
  · intro lh now s h
    cases hv : s.isValveOpen
    · cases hA : isOperationAllowed lh <;>
        simp [valveOpenRequest, hv, hA, h]
    · simp [valveOpenRequest, hv]

/-- Witness for `budget_exhaustion_inhibits_opening`: a tick at the
exhausted state during allowed hours sets `timeLimitActive`, and a
subsequent open request is denied unchanged. -/
theorem budget_exhaustion_inhibits_opening_witness :
    (valveDriverLoop (some 12) 1000 exhaustedState).timeLimitActive = true ∧
    valveOpenRequest true (some 12) 1000
        { exhaustedState with timeLimitActive := true } =
      { exhaustedState with timeLimitActive := true } :=
  ⟨(budget_exhaustion_inhibits_opening.1 (some 12) 1000 exhaustedState
      (by decide)).resolve_right (by decide),
   budget_exhaustion_inhibits_opening.2 (some 12) 1000 _ rfl⟩

/-! ## Case analyses of the driver operations -/

theorem valveOpenRequest_cases (b : Bool) (lh : Option ℕ) (now : ℕ)
    (s : VDState) :
    valveOpenRequest b lh now s = s ∨
    (b = true ∧ s.isValveOpen = false ∧
      valveOpenRequest b lh now s = { s with timeLimitActive := true }) ∨
    (b = true ∧ s.isValveOpen = false ∧
      valveOpenRequest b lh now s =
        { s with isValveOpen := true, lastOpenedAt := now }) ∨
    (b = false ∧ s.isValveOpen = true ∧ s.lastOpenedAt ≠ 0 ∧
      valveOpenRequest b lh now s =
        { s with
            isValveOpen := false
            lastOpenedAt := 0
            cumulativeOpenMillis :=
              s.cumulativeOpenMillis + (now - s.lastOpenedAt) }) ∨
    (b = false ∧ s.isValveOpen = true ∧ s.lastOpenedAt = 0 ∧
      valveOpenRequest b lh now s = { s with isValveOpen := false }) := by
  cases hb : b <;> cases hv : s.isValveOpen
  · left
    simp [valveOpenRequest, hv]
  · by_cases hl : s.lastOpenedAt = 0
    · right; right; right; right
      exact ⟨rfl, rfl, hl, by simp [valveOpenRequest, hv, hl]⟩
    · right; right; right; left
      exact ⟨rfl, rfl, hl, by simp [valveOpenRequest, hv, hl]⟩
  · cases hA : isOperationAllowed lh
    · left
      simp [valveOpenRequest, hv, hA]
    · cases hT : s.timeLimitActive
      · by_cases hM : MAX_TOTAL_OPEN_MS ≤ s.cumulativeOpenMillis
        · right; left
          exact ⟨rfl, rfl, by simp [valveOpenRequest, hv, hA, hT, hM]⟩
        · right; right; left
          exact ⟨rfl, rfl, by simp [valveOpenRequest, hv, hA, hT, hM]⟩
      · left
        simp [valveOpenRequest, hv, hA, hT]
  · left
    simp [valveOpenRequest, hv]

theorem valveOpenRequest_inhibit (b : Bool) (lh : Option ℕ) (now : ℕ)
    (s : VDState) :
    (valveOpenRequest b lh now s).inhibitStartMillis =
      s.inhibitStartMillis := by
  rcases valveOpenRequest_cases b lh now s with
    h | ⟨-, -, h⟩ | ⟨-, -, h⟩ | ⟨-, -, -, h⟩ | ⟨-, -, -, h⟩ <;> rw [h]

theorem loopLimitEnforce_cases (now : ℕ) (s : VDState) :
    loopLimitEnforce now s = s ∨
    (s.timeLimitActive = false ∧ s.isValveOpen = false ∧
      loopLimitEnforce now s = { s with timeLimitActive := true }) ∨
    (s.timeLimitActive = false ∧ s.isValveOpen = true ∧
      loopLimitEnforce now s =
        { s with
            isValveOpen := false
            lastOpenedAt := 0
            cumulativeOpenMillis :=
              s.cumulativeOpenMillis + runningOpenMs now s
            timeLimitActive := true }) := by
  by_cases hg : ¬s.timeLimitActive = true ∧
      MAX_TOTAL_OPEN_MS ≤ s.cumulativeOpenMillis + runningOpenMs now s
  · cases hv : s.isValveOpen
    · right; left
      refine ⟨by simpa using hg.1, rfl, ?_⟩
      simp only [loopLimitEnforce]
      rw [if_pos hg, if_neg (by simp [hv]), hv]
    · right; right
      refine ⟨by simpa using hg.1, rfl, ?_⟩
      simp only [loopLimitEnforce]
      rw [if_pos hg, if_pos hv]
  · left
    simp only [loopLimitEnforce]
    rw [if_neg hg]

theorem valveDriverLoop_inhibit (lh : Option ℕ) (now : ℕ) (s : VDState) :
    (valveDriverLoop lh now s).inhibitStartMillis =
      if loopResetFires now (loopLimitEnforce now (loopInhibitTrack lh now s))
        = true then 0
      else (loopInhibitTrack lh now s).inhibitStartMillis := by
  simp only [valveDriverLoop]
  by_cases hr : loopResetFires now
      (loopLimitEnforce now (loopInhibitTrack lh now s)) = true
  · rw [if_pos hr, if_pos hr]
  · rw [if_neg hr, if_neg hr]
    exact loopLimitEnforce_inhibit now _

theorem valveDriverLoop_noReset (lh : Option ℕ) (now : ℕ) (s : VDState)
    (hr : loopResetFires now
      (loopLimitEnforce now (loopInhibitTrack lh now s)) = false) :
    valveDriverLoop lh now s =
      loopLimitEnforce now (loopInhibitTrack lh now s) := by
  simp only [valveDriverLoop]
  rw [if_neg (by simp [hr])]

theorem valveDriverLoop_clears_limit (lh : Option ℕ) (now : ℕ) (s : VDState)
    (hT : s.timeLimitActive = true)
    (hc : (valveDriverLoop lh now s).timeLimitActive = false) :
    isOperationAllowed lh = false ∧ s.inhibitStartMillis ≠ 0 ∧
    INHIBIT_RESET_MS ≤ now - s.inhibitStartMillis ∧
    (valveDriverLoop lh now s).cumulativeOpenMillis = 0 ∧
    (valveDriverLoop lh now s).inhibitStartMillis = 0 := by
  have hT1 : (loopInhibitTrack lh now s).timeLimitActive = true := by
    rw [(loopInhibitTrack_fields lh now s).2.2.2]
    exact hT
  have hs2 : loopLimitEnforce now (loopInhibitTrack lh now s) =
      loopInhibitTrack lh now s := loopLimitEnforce_active now _ hT1
  simp only [valveDriverLoop, hs2] at hc ⊢
  by_cases hr : loopResetFires now (loopInhibitTrack lh now s) = true
  · rw [if_pos hr] at hc ⊢
    simp only [loopResetFires, Bool.and_eq_true, decide_eq_true_eq] at hr
    obtain ⟨⟨-, hne⟩, helapsed⟩ := hr
    cases hA : isOperationAllowed lh
    · rw [loopInhibitTrack_inhibit_disallowed lh now s hA] at hne helapsed
      by_cases h0 : s.inhibitStartMillis = 0
      · rw [if_pos h0] at helapsed
        exfalso
        simp only [Nat.sub_self] at helapsed
        simp [INHIBIT_RESET_MS] at helapsed
      · rw [if_neg h0] at helapsed
        exact ⟨rfl, h0, helapsed, rfl, rfl⟩
    · exfalso
      rw [loopInhibitTrack_inhibit_allowed lh now s hA] at hne
      exact hne rfl
  · rw [if_neg hr] at hc
    exact absurd hc (by simp [hT1])

/-! ## Observer bookkeeping lemmas -/

theorem accountStep_resetFired (st : VDStep) (s : VDState)
    (a : OpenAccount) :
    (accountStep st s a).resetFired = (a.resetFired || stepResets st s) := by
  simp only [accountStep]
  by_cases hr : stepResets st s = true
  · rw [if_pos hr, hr, Bool.or_true]
  · have hr2 : stepResets st s = false := by simpa using hr
    rw [if_neg (by simp [hr2]), hr2, Bool.or_false]
    split
    · rfl
    · split
      · rfl
      · rfl

theorem accountStep_noReset (st : VDStep) (s : VDState) (a : OpenAccount)
    (hr : stepResets st s = false) :
    accountStep st s a =
      (if !s.isValveOpen && (vdStep st s).isValveOpen then
        { a with openSince := some st.now }
      else if s.isValveOpen && !(vdStep st s).isValveOpen then
        { a with
            openSince := none
            closedSum := a.closedSum + (st.now - (a.openSince.getD 0)) }
      else a) := by
  simp only [accountStep]
  rw [if_neg (by simp [hr])]

/-! ## The inhibition-run invariant -/

theorem inhibitSince_step (T : List VDStep) (s : VDState) (st : VDStep)
    (hInv : InhibitSince T s) :
    InhibitSince (T ++ [st]) (vdStep st s) := by
  intro hne
  obtain ⟨ev, lh, now⟩ := st
  cases ev
  case request b =>
    rw [show vdStep ⟨VDEvent.request b, lh, now⟩ s =
        valveOpenRequest b lh now s from rfl,
      valveOpenRequest_inhibit] at hne ⊢
    obtain ⟨T1, q, T2, hsplit, hqev, hqnow, hqA, hall⟩ := hInv hne
    refine ⟨T1, q, T2 ++ [⟨VDEvent.request b, lh, now⟩], ?_, hqev, hqnow,
      hqA, ?_⟩
    · rw [hsplit]
      simp
    · intro r hrm hrev
      rcases List.mem_append.mp hrm with hrm2 | hrm2
      · exact hall r hrm2 hrev
      · exfalso
        have : r = (⟨VDEvent.request b, lh, now⟩ : VDStep) := by
          simpa using hrm2
        rw [this] at hrev
        cases hrev
  case tick =>
    rw [show vdStep ⟨VDEvent.tick, lh, now⟩ s =
        valveDriverLoop lh now s from rfl] at hne ⊢
    rw [valveDriverLoop_inhibit] at hne ⊢
    by_cases hr : loopResetFires now
        (loopLimitEnforce now (loopInhibitTrack lh now s)) = true
    · rw [if_pos hr] at hne
      exact absurd rfl hne
    · rw [if_neg hr] at hne ⊢
      cases hA : isOperationAllowed lh
      · rw [loopInhibitTrack_inhibit_disallowed lh now s hA] at hne ⊢
        by_cases h0 : s.inhibitStartMillis = 0
        · rw [if_pos h0] at hne ⊢
          refine ⟨T, ⟨VDEvent.tick, lh, now⟩, [], by simp, rfl, rfl, hA, ?_⟩
          intro r hrm
          cases hrm
        · rw [if_neg h0] at hne ⊢
          obtain ⟨T1, q, T2, hsplit, hqev, hqnow, hqA, hall⟩ := hInv h0
          refine ⟨T1, q, T2 ++ [⟨VDEvent.tick, lh, now⟩], ?_, hqev, hqnow,
            hqA, ?_⟩
          · rw [hsplit]
            simp
          · intro r hrm hrev
            rcases List.mem_append.mp hrm with hrm2 | hrm2
            · exact hall r hrm2 hrev
            · have : r = (⟨VDEvent.tick, lh, now⟩ : VDStep) := by
                simpa using hrm2
              rw [this]
              exact hA
      · exfalso
        rw [loopInhibitTrack_inhibit_allowed lh now s hA] at hne
        exact hne rfl

theorem inhibitSince_run_aux (T : List VDStep) :
    ∀ (T0 : List VDStep) (s : VDState), InhibitSince T0 s →
      InhibitSince (T0 ++ T) (vdRun s T) := by
  induction T with
  | nil =>
    intro T0 s h
    simpa using h
  | cons st T ih =>
    intro T0 s h
    have h1 : InhibitSince (T0 ++ [st]) (vdStep st s) :=
      inhibitSince_step T0 s st h
    have h2 := ih (T0 ++ [st]) (vdStep st s) h1
    rw [show vdRun s (st :: T) = vdRun (vdStep st s) T from rfl]
    simpa [List.append_assoc] using h2

theorem inhibitSince_run (T : List VDStep) :
    InhibitSince T (vdRun initValveState T) := by
  have h0 : InhibitSince [] initValveState := by
    intro hne
    exact absurd rfl hne
  simpa using inhibitSince_run_aux T [] initValveState h0

/-! ## Theorem for the reset-rule claim (C5) -/

/-- C5: (1) whenever a `valveDriverLoop` call clears `timeLimitActive` (and
with it resets `cumulativeOpenMillis` to zero) on a state reached from the
initial state by a trace of driver calls, the clearing tick saw the window
closed, and the trace splits at the tick that started the inhibition run: it
saw the window closed, every later tick of the trace saw the window closed
(the run was uninterrupted), and at least `INHIBIT_RESET_MS` elapsed between
that tick and the clearing call; (2) a tick during allowed hours leaves
`timeLimitActive` set and zeroes the inhibition timer, so
(3) inhibition resuming later restarts the timer from the current instant;
and (4) `valveOpenRequest` never clears the limit and never decreases the
accumulator. -/
theorem limit_reset_requires_sustained_inhibition :
    (∀ (T : List VDStep) (lh : Option ℕ) (now : ℕ),
      (vdRun initValveState T).timeLimitActive = true →
      (valveDriverLoop lh now (vdRun initValveState T)).timeLimitActive =
        false →
      isOperationAllowed lh = false ∧
      (valveDriverLoop lh now
        (vdRun initValveState T)).cumulativeOpenMillis = 0 ∧
      ∃ T1 q T2, T = T1 ++ q :: T2 ∧ q.ev = VDEvent.tick ∧
        isOperationAllowed q.localHour = false ∧
        (∀ r ∈ T2, r.ev = VDEvent.tick →
          isOperationAllowed r.localHour = false) ∧
        INHIBIT_RESET_MS ≤ now - q.now) ∧
    (∀ (lh : Option ℕ) (now : ℕ) (s : VDState),
      isOperationAllowed lh = true → s.timeLimitActive = true →
      (valveDriverLoop lh now s).timeLimitActive = true ∧
      (valveDriverLoop lh now s).inhibitStartMillis = 0) ∧
    (∀ (lh : Option ℕ) (now : ℕ) (s : VDState),
      isOperationAllowed lh = false → s.inhibitStartMillis = 0 →
      (valveDriverLoop lh now s).inhibitStartMillis = now) ∧
    (∀ (b : Bool) (lh : Option ℕ) (now : ℕ) (s : VDState),
      (s.timeLimitActive = true →
        (valveOpenRequest b lh now s).timeLimitActive = true) ∧
      s.cumulativeOpenMillis ≤
        (valveOpenRequest b lh now s).cumulativeOpenMillis) := by
  refine ⟨?_, ?_, ?_, ?_⟩
  · intro T lh now hT hc
    obtain ⟨hA, hne, helapsed, hcum, -⟩ :=
      valveDriverLoop_clears_limit lh now _ hT hc
    obtain ⟨T1, q, T2, hsplit, hqev, hqnow, hqA, hall⟩ :=
      inhibitSince_run T hne
    refine ⟨hA, hcum, T1, q, T2, hsplit, hqev, hqA, hall, ?_⟩
    rw [hqnow]
    exact helapsed
  · intro lh now s hA hT
    have hT1 : (loopInhibitTrack lh now s).timeLimitActive = true := by
      rw [(loopInhibitTrack_fields lh now s).2.2.2]
      exact hT
    have hs2 : loopLimitEnforce now (loopInhibitTrack lh now s) =
        loopInhibitTrack lh now s := loopLimitEnforce_active now _ hT1
    have hi : (loopInhibitTrack lh now s).inhibitStartMillis = 0 :=
      loopInhibitTrack_inhibit_allowed lh now s hA
    have hr : loopResetFires now (loopInhibitTrack lh now s) = false := by
      simp [loopResetFires, hi]
    simp only [valveDriverLoop, hs2]
    rw [if_neg (by simp [hr])]
    exact ⟨hT1, hi⟩
  · intro lh now s hA h0
    have hi : (loopInhibitTrack lh now s).inhibitStartMillis = now := by
      rw [loopInhibitTrack_inhibit_disallowed lh now s hA, if_pos h0]
    have h2 : (loopLimitEnforce now
        (loopInhibitTrack lh now s)).inhibitStartMillis = now := by
      rw [loopLimitEnforce_inhibit]
      exact hi
    have hr : loopResetFires now
        (loopLimitEnforce now (loopInhibitTrack lh now s)) = false := by
      simp [loopResetFires, h2, INHIBIT_RESET_MS]
    simp only [valveDriverLoop]
    rw [if_neg (by simp [hr])]
    exact h2
  · intro b lh now s
    rcases valveOpenRequest_cases b lh now s with
      h | ⟨-, -, h⟩ | ⟨-, -, h⟩ | ⟨-, -, -, h⟩ | ⟨-, -, -, h⟩ <;>
      rw [h] <;> simp

/-- Witness for `limit_reset_requires_sustained_inhibition`: the trace
`c5Trace` leaves the limit active at 14401000 ms; the reset tick at
18001000 ms (window still closed, one hour later) zeroes the accumulator;
an allowed-hours tick on `inhibitedLimitState` keeps the limit and zeroes
the timer; a closed-window tick on `limitNoInhibitState` restarts the
timer; a close request cannot decrease the accumulator of
`exhaustedState`. -/
theorem limit_reset_requires_sustained_inhibition_witness :
    (valveDriverLoop (some 23) 18001000
      (vdRun initValveState c5Trace)).cumulativeOpenMillis = 0 ∧
    (valveDriverLoop (some 12) 100 inhibitedLimitState).timeLimitActive =
      true ∧
    (valveDriverLoop (some 23) 200 limitNoInhibitState).inhibitStartMillis =
      200 ∧
    exhaustedState.cumulativeOpenMillis ≤
      (valveOpenRequest false (some 12) 300
        exhaustedState).cumulativeOpenMillis :=
  ⟨(limit_reset_requires_sustained_inhibition.1 c5Trace (some 23) 18001000
      (by decide) (by decide)).2.1,
   (limit_reset_requires_sustained_inhibition.2.1 (some 12) 100
      inhibitedLimitState rfl rfl).1,
   limit_reset_requires_sustained_inhibition.2.2.1 (some 23) 200
      limitNoInhibitState rfl rfl,
   (limit_reset_requires_sustained_inhibition.2.2.2 false (some 12) 300
      exhaustedState).2⟩

/-! ## Preservation of the accounting invariant -/

theorem accountInv_step_of_same (st : VDStep) (t : ℕ) (s s2 : VDState)
    (a : OpenAccount) (hstep : vdStep st s = s2)
    (hr2 : stepResets st s = false)
    (hopen : s2.isValveOpen = s.isValveOpen)
    (hcums : s2.cumulativeOpenMillis = s.cumulativeOpenMillis)
    (hlast : s2.lastOpenedAt = s.lastOpenedAt)
    (hle : t ≤ st.now)
    (hsync : s.isValveOpen = a.openSince.isSome)
    (hbound : ∀ u, a.openSince = some u →
      s.lastOpenedAt = u ∧ 0 < u ∧ u ≤ t)
    (hcum : s.cumulativeOpenMillis = a.closedSum) :
    AccountInv st.now s2 (accountStep st s a) := by
  rw [accountStep_noReset st s a hr2, hstep]
  have hcond : (!s.isValveOpen && s2.isValveOpen) = false := by
    rw [hopen]
    cases s.isValveOpen <;> rfl
  have hcond2 : (s.isValveOpen && !s2.isValveOpen) = false := by
    rw [hopen]
    cases s.isValveOpen <;> rfl
  rw [if_neg (by simp [hcond]), if_neg (by simp [hcond2])]
  right
  exact ⟨by rw [hopen, hsync],
    fun u hu => ⟨by rw [hlast]; exact (hbound u hu).1, (hbound u hu).2.1,
      le_trans (hbound u hu).2.2 hle⟩,
    by rw [hcums, hcum]⟩

theorem accountInv_step_of_open (st : VDStep) (s s2 : VDState)
    (a : OpenAccount) (hstep : vdStep st s = s2)
    (hr2 : stepResets st s = false)
    (hv : s.isValveOpen = false)
    (hopen : s2.isValveOpen = true)
    (hcums : s2.cumulativeOpenMillis = s.cumulativeOpenMillis)
    (hlast : s2.lastOpenedAt = st.now)
    (hpos : 0 < st.now)
    (hcum : s.cumulativeOpenMillis = a.closedSum) :
    AccountInv st.now s2 (accountStep st s a) := by
  rw [accountStep_noReset st s a hr2, hstep]
  rw [if_pos (by rw [hv, hopen]; rfl)]
  right
  refine ⟨by rw [hopen]; rfl, ?_, by rw [hcums, hcum]⟩
  intro u hu
  have hueq : st.now = u := by simpa using hu
  exact ⟨hlast.trans hueq, hueq ▸ hpos, le_of_eq hueq.symm⟩

theorem accountInv_step_of_close (st : VDStep) (s s2 : VDState)
    (a : OpenAccount) (u : ℕ) (hstep : vdStep st s = s2)
    (hr2 : stepResets st s = false)
    (hv : s.isValveOpen = true)
    (hclosed : s2.isValveOpen = false)
    (ho : a.openSince = some u)
    (hlastu : s.lastOpenedAt = u)
    (hcums : s2.cumulativeOpenMillis =
      s.cumulativeOpenMillis + (st.now - s.lastOpenedAt))
    (hcum : s.cumulativeOpenMillis = a.closedSum) :
    AccountInv st.now s2 (accountStep st s a) := by
  rw [accountStep_noReset st s a hr2, hstep]
  rw [if_neg (by rw [hv]; simp), if_pos (by rw [hv, hclosed]; rfl)]
  right
  refine ⟨by rw [hclosed]; rfl, ?_, ?_⟩
  · intro w hw
    simp at hw
  · rw [hcums, hcum, hlastu, ho]
    rfl

theorem accountInv_step (st : VDStep) (t : ℕ) (s : VDState) (a : OpenAccount)
    (hpos : 0 < st.now) (hle : t ≤ st.now) (h : AccountInv t s a) :
    AccountInv st.now (vdStep st s) (accountStep st s a) := by
  rcases h with hflag | ⟨hsync, hbound, hcum⟩
  · left
    rw [accountStep_resetFired, hflag, Bool.true_or]
  by_cases hrt : stepResets st s = true
  · left
    rw [accountStep_resetFired, hrt, Bool.or_true]
  have hr2 : stepResets st s = false := by simpa using hrt
  obtain ⟨ev, lh, now⟩ := st
  cases ev with
  | request b =>
    have hstep : vdStep ⟨VDEvent.request b, lh, now⟩ s =
        valveOpenRequest b lh now s := rfl
    rcases valveOpenRequest_cases b lh now s with
      heq | ⟨hb, hv, heq⟩ | ⟨hb, hv, heq⟩ | ⟨hb, hv, hl, heq⟩ |
      ⟨hb, hv, hl, heq⟩
    · rw [hstep, heq]
      exact accountInv_step_of_same _ t s _ a (hstep.trans heq) hr2 rfl rfl
        rfl hle hsync hbound hcum
    · rw [hstep, heq]
      exact accountInv_step_of_same _ t s _ a (hstep.trans heq) hr2 rfl rfl
        rfl hle hsync hbound hcum
    · rw [hstep, heq]
      exact accountInv_step_of_open _ s _ a (hstep.trans heq) hr2 hv rfl rfl
        rfl hpos hcum
    · have hvs : a.openSince.isSome = true := by rw [← hsync, hv]
      obtain ⟨u, ho⟩ := Option.isSome_iff_exists.mp hvs
      rw [hstep, heq]
      exact accountInv_step_of_close _ s _ a u (hstep.trans heq) hr2 hv rfl
        ho (hbound u ho).1 rfl hcum
    · exfalso
      have hvs : a.openSince.isSome = true := by rw [← hsync, hv]
      obtain ⟨u, ho⟩ := Option.isSome_iff_exists.mp hvs
      have h1 := (hbound u ho).1
      have h2 := (hbound u ho).2.1
      omega
  | tick =>
    have hstep : vdStep ⟨VDEvent.tick, lh, now⟩ s =
        valveDriverLoop lh now s := rfl
    have hnr : loopResetFires now
        (loopLimitEnforce now (loopInhibitTrack lh now s)) = false := by
      simpa [stepResets] using hr2
    have hloop : valveDriverLoop lh now s =
        loopLimitEnforce now (loopInhibitTrack lh now s) :=
      valveDriverLoop_noReset lh now s hnr
    obtain ⟨i, hi⟩ := loopInhibitTrack_eq lh now s
    rw [hi] at hloop
    rcases loopLimitEnforce_cases now { s with inhibitStartMillis := i } with
      heq | ⟨hT, hvv, heq⟩ | ⟨hT, hvv, heq⟩
    · rw [hstep, hloop, heq]
      exact accountInv_step_of_same _ t s _ a
        (hstep.trans (hloop.trans heq)) hr2 rfl rfl rfl hle hsync hbound hcum
    · rw [hstep, hloop, heq]
      exact accountInv_step_of_same _ t s _ a
        (hstep.trans (hloop.trans heq)) hr2 rfl rfl rfl hle hsync hbound hcum
    · have hv : s.isValveOpen = true := hvv
      have hvs : a.openSince.isSome = true := by rw [← hsync, hv]
      obtain ⟨u, ho⟩ := Option.isSome_iff_exists.mp hvs
      have hlastu : s.lastOpenedAt = u := (hbound u ho).1
      have hlne : s.lastOpenedAt ≠ 0 := by
        have := (hbound u ho).2.1
        omega
      have hrun : runningOpenMs now { s with inhibitStartMillis := i } =
          now - s.lastOpenedAt := by
        simp [runningOpenMs, hv, hlne]
      have hfinal : vdStep ⟨VDEvent.tick, lh, now⟩ s =
          { isValveOpen := false
            cumulativeOpenMillis := s.cumulativeOpenMillis +
              runningOpenMs now { s with inhibitStartMillis := i }
            lastOpenedAt := 0
            timeLimitActive := true
            inhibitStartMillis := i } := by
        rw [hstep, hloop, heq]
      rw [hfinal]
      refine accountInv_step_of_close _ s _ a u hfinal hr2 hv rfl ho
        hlastu ?_ hcum
      show s.cumulativeOpenMillis +
          runningOpenMs now { s with inhibitStartMillis := i } =
        s.cumulativeOpenMillis + (now - s.lastOpenedAt)
      rw [hrun]

theorem accountInv_run (T : List VDStep) :
    ∀ (t : ℕ) (s : VDState) (a : OpenAccount), timesOk t T = true →
      AccountInv t s a →
      ∃ t2, AccountInv t2 (vdAccountRun s a T).1 (vdAccountRun s a T).2 := by
  induction T with
  | nil =>
    intro t s a _ h
    exact ⟨t, h⟩
  | cons st T ih =>
    intro t s a hok h
    simp only [timesOk, Bool.and_eq_true, decide_eq_true_eq] at hok
    obtain ⟨⟨hpos, hle⟩, hok2⟩ := hok
    exact ih st.now _ _ hok2 (accountInv_step st t s a hpos hle h)

/-! ## Theorem for the budget-conservation claim (C4) -/

/-- C4: for any sequence of driver calls with well-formed timing (positive,
non-decreasing `millis()` values), as long as the deliberate counter reset
of `valveDriverLoop` has not fired, `cumulativeOpenMillis` equals the sum of
all closed open-intervals of the run, each folded in exactly once at the
moment the valve transitioned to closed (explicit close request or forced
safety closure); a still-running interval is not yet included, but its start
is retained in `lastOpenedAt`, and when the valve ends closed no interval is
pending. -/
theorem cumulativeOpen_budget_conservation (T : List VDStep)
    (hok : timesOk 0 T = true)
    (hreset :
      (vdAccountRun initValveState initAccount T).2.resetFired = false) :
    (vdAccountRun initValveState initAccount T).1.cumulativeOpenMillis =
      (vdAccountRun initValveState initAccount T).2.closedSum ∧
    ((vdAccountRun initValveState initAccount T).1.isValveOpen = false →
      (vdAccountRun initValveState initAccount T).2.openSince = none) ∧
    (∀ u, (vdAccountRun initValveState initAccount T).2.openSince = some u →
      (vdAccountRun initValveState initAccount T).1.lastOpenedAt = u) := by
  have hInv0 : AccountInv 0 initValveState initAccount := by
    right
    refine ⟨rfl, ?_, rfl⟩
    intro u hu
    simp [initAccount] at hu
  obtain ⟨t2, hInv⟩ :=
    accountInv_run T 0 initValveState initAccount hok hInv0
  rcases hInv with hbad | ⟨hsync, hbound, hcum⟩
  · rw [hreset] at hbad
    cases hbad
  · refine ⟨hcum, ?_, fun u hu => (hbound u hu).1⟩
    intro hclosed
    cases ho : (vdAccountRun initValveState initAccount T).2.openSince
    · rfl
    · rw [hclosed, ho] at hsync
      cases hsync

/-- Witness for `cumulativeOpen_budget_conservation` on `c4Trace`: two open
intervals of 2000 ms and 4000 ms are folded in exactly once each. -/
theorem cumulativeOpen_budget_conservation_witness :
    timesOk 0 c4Trace = true ∧
    (vdAccountRun initValveState initAccount c4Trace).2.resetFired = false ∧
    (vdAccountRun initValveState initAccount
        c4Trace).1.cumulativeOpenMillis =
      (vdAccountRun initValveState initAccount c4Trace).2.closedSum :=
  ⟨by decide, by decide,
   (cumulativeOpen_budget_conservation c4Trace (by decide) (by decide)).1⟩

end GasLog
